import Mathlib

/-!
Shallow embedding of the 6502-style CPU core from `src/cpu.rs`
(`rust-nes-emulator`).  Registers and memory cells are `Nat`s carrying
`u8`/`u16` values; the memory array of the source is `[u8; 0xFFFF]`
(65535 cells), modelled as a function guarded by an explicit bounds
check, so that a Rust index panic shows up as `none` / a `panic`
result.  The `run` loop is given explicit fuel; the `todo!()` arm of
the opcode dispatch becomes a `decodeError` result carrying the CPU
state at the fault.
-/

/-- Size of the memory array: the source declares `memory: [u8; 0xFFFF]`,
i.e. 65535 bytes (one short of the full 16-bit address space). -/
def MEM_SIZE : Nat := 0xFFFF

/-- The CPU state of `struct CPU`: registers A, X, Y, the status byte,
the 16-bit program counter and the memory array. -/
structure CPU where
  register_a : Nat
  register_x : Nat
  register_y : Nat
  status : Nat
  program_counter : Nat
  memory : Nat → Nat

/-- Rust `CPU::new()`: everything zeroed, memory zero-filled. -/
def CPU.new : CPU :=
  { register_a := 0, register_x := 0, register_y := 0, status := 0,
    program_counter := 0, memory := fun _ => 0 }

/-- Rust `mem_read`: `self.memory[addr as usize]`.  Indexing the 65535-byte
array out of range panics in Rust, modelled by `none`. -/
def mem_read (cpu : CPU) (addr : Nat) : Option Nat :=
  if addr < MEM_SIZE then some (cpu.memory addr) else none

/-- Rust `mem_write`: `self.memory[addr as usize] = data`, with the same
bounds behaviour as `mem_read`. -/
def mem_write (cpu : CPU) (addr data : Nat) : Option CPU :=
  if addr < MEM_SIZE then
    some { cpu with memory := fun i => if i = addr then data else cpu.memory i }
  else none

/-- Rust `mem_read_u16`: little-endian 16-bit read, `lo` from `pos`, `hi`
from `pos + 1`, combined as `(hi << 8) | lo`. -/
def mem_read_u16 (cpu : CPU) (pos : Nat) : Option Nat := do
  let lo ← mem_read cpu pos
  let hi ← mem_read cpu (pos + 1)
  return (hi <<< 8) ||| lo

/-- Rust `mem_write_u16`: `hi = (data >> 8) as u8`, `low = (data & 0xff) as u8`,
low byte written at `pos`, high byte at `pos + 1`. -/
def mem_write_u16 (cpu : CPU) (pos data : Nat) : Option CPU := do
  let hi := (data >>> 8) % 256
  let low := data &&& 0xFF
  let cpu1 ← mem_write cpu pos low
  mem_write cpu1 (pos + 1) hi

/-- Rust `update_zero_and_negative_flags`: set/clear the Zero bit (bit 1)
according to `result == 0`, then set/clear the Negative bit (bit 7)
according to bit 7 of `result`. -/
def update_zero_and_negative_flags (cpu : CPU) (result : Nat) : CPU :=
  let cpu1 :=
    if result = 0 then { cpu with status := cpu.status ||| 0b00000010 }
    else { cpu with status := cpu.status &&& 0b11111101 }
  if result &&& 0b10000000 ≠ 0 then { cpu1 with status := cpu1.status ||| 0b10000000 }
  else { cpu1 with status := cpu1.status &&& 0b01111111 }

/-- Rust `set_carry_flag`: `self.status = self.status | 0b00000001`. -/
def set_carry_flag (cpu : CPU) : CPU :=
  { cpu with status := cpu.status ||| 0b00000001 }

/-- Rust `lda`: load `value` into A, then update Z/N from A. -/
def lda (cpu : CPU) (value : Nat) : CPU :=
  let cpu1 := { cpu with register_a := value }
  update_zero_and_negative_flags cpu1 cpu1.register_a

/-- Rust `tax`: copy A into X, then update Z/N from X. -/
def tax (cpu : CPU) : CPU :=
  let cpu1 := { cpu with register_x := cpu.register_a }
  update_zero_and_negative_flags cpu1 cpu1.register_x

/-- Body of the `0xc0` (CPY) match arm of `run`, after the operand has
been fetched: strict `>` sets the carry flag, equality sets the zero
flag, otherwise the status is untouched. -/
def cpy_body (cpu : CPU) (param : Nat) : CPU :=
  if cpu.register_y > param then set_carry_flag cpu
  else if cpu.register_y = param then { cpu with status := cpu.status ||| 0b00000010 }
  else cpu

/-- Body of the `0xe8` (INX) match arm of `run`: increment X when
`X < 0xff`, otherwise reset it to `0x00`, then update Z/N from X. -/
def inx_body (cpu : CPU) : CPU :=
  let cpu1 :=
    if cpu.register_x < 0xFF then { cpu with register_x := cpu.register_x + 1 }
    else { cpu with register_x := 0x00 }
  update_zero_and_negative_flags cpu1 cpu1.register_x

/-- Outcome of `run`: `ok` is the normal return at the BRK opcode,
`decodeError` is the `todo!()` panic on an unimplemented opcode
(carrying the opcode byte and the CPU state at the fault), `panic` is
a memory-index panic, and `outOfFuel` marks exhausted fuel. -/
inductive RunResult where
  | ok (cpu : CPU)
  | decodeError (opcode : Nat) (cpu : CPU)
  | panic
  | outOfFuel (cpu : CPU)

/-- Rust `run`: the fetch/decode/execute loop, with fuel making the
recursion structural.  Each iteration fetches the opcode, advances the
program counter, and dispatches on `0xA9` (LDA immediate), `0xAA`
(TAX), `0xc0` (CPY immediate), `0xe8` (INX), `0x00` (BRK, returns),
with `todo!()` on anything else. -/
def run : Nat → CPU → RunResult
  | 0, cpu => .outOfFuel cpu
  | fuel + 1, cpu =>
    match mem_read cpu cpu.program_counter with
    | none => .panic
    | some opscode =>
      let cpu1 : CPU := { cpu with program_counter := cpu.program_counter + 1 }
      if opscode = 0xA9 then
        match mem_read cpu1 cpu1.program_counter with
        | none => .panic
        | some param =>
          let cpu2 : CPU := { cpu1 with program_counter := cpu1.program_counter + 1 }
          run fuel (lda cpu2 param)
      else if opscode = 0xAA then
        run fuel (tax cpu1)
      else if opscode = 0xC0 then
        match mem_read cpu1 cpu1.program_counter with
        | none => .panic
        | some param =>
          let cpu2 : CPU := { cpu1 with program_counter := cpu1.program_counter + 1 }
          run fuel (cpy_body cpu2 param)
      else if opscode = 0xE8 then
        run fuel (inx_body cpu1)
      else if opscode = 0x00 then .ok cpu1
      else .decodeError opscode cpu1

/-- Rust `load`: `self.memory[0x8000 .. 0x8000 + program.len()]` receives the
program bytes (the slice panics when `0x8000 + len` exceeds the 65535-byte
array, modelled by `none`), then the reset vector `0x8000` is written at
`0xFFFC`. -/
def load (cpu : CPU) (program : List Nat) : Option CPU :=
  if 0x8000 + program.length ≤ MEM_SIZE then
    let cpu1 : CPU :=
      { cpu with memory := fun i =>
          if 0x8000 ≤ i ∧ i < 0x8000 + program.length then program.getD (i - 0x8000) 0
          else cpu.memory i }
    mem_write_u16 cpu1 0xFFFC 0x8000
  else none

/-- Rust `reset`: zero A, X, Y and the status byte, then set the program
counter from the 16-bit value at `0xFFFC`. -/
def reset (cpu : CPU) : Option CPU := do
  let cpu1 : CPU :=
    { cpu with register_a := 0, register_x := 0, register_y := 0, status := 0 }
  let pc ← mem_read_u16 cpu1 0xFFFC
  return { cpu1 with program_counter := pc }

/-- Rust `load_and_run`: `load`, `reset`, `run` in sequence; a panic in
either of the first two steps aborts the whole call. -/
def load_and_run (fuel : Nat) (cpu : CPU) (program : List Nat) : RunResult :=
  match load cpu program with
  | none => .panic
  | some cpu1 =>
    match reset cpu1 with
    | none => .panic
    | some cpu2 => run fuel cpu2

/-- Zero flag: bit 1 of the status byte. -/
def zeroFlag (status : Nat) : Bool := status.testBit 1

/-- Sample state with Y = 5, as left by `reset` plus a load of Y. -/
def cpuY5 : CPU := { CPU.new with register_y := 5 }

/-- Sample state with X = 0xFF, about to execute INX. -/
def cpuXFF : CPU := { CPU.new with register_x := 0xFF }

/-- Sample state with a byte-sized nonzero status, for frame-effect checks. -/
def cpuStatus117 : CPU := { CPU.new with status := 117 }

/-- Memory image `[0xA9, 0x05, 0xFF, 0, 0, ...]`: LDA #5 followed by an
unimplemented opcode byte. -/
def badOpcodeMem : Nat → Nat :=
  fun i => if i = 0 then 0xA9 else if i = 1 then 5 else if i = 2 then 0xFF else 0

/-- The CPU state just after `lda 5` executed from `badOpcodeMem`:
A = 5, PC sits on the unimplemented byte 0xFF. -/
def cpuAfterLda5 : CPU :=
  { register_a := 5, register_x := 0, register_y := 0, status := 0,
    program_counter := 2, memory := badOpcodeMem }

/-- Negative flag: bit 7 of the status byte. -/
def negFlag (status : Nat) : Bool := status.testBit 7

/-- Carry flag: bit 0 of the status byte. -/
def carryFlag (status : Nat) : Bool := status.testBit 0








/-- A byte-sized value has no bits at positions 8 and above. -/
theorem testBit_high_false (s i : Nat) (hs : s < 256) (h8 : 8 ≤ i) :
    s.testBit i = false := by
  apply Nat.testBit_lt_two_pow
  calc s < 256 := hs
    _ = 2 ^ 8 := by norm_num
    _ ≤ 2 ^ i := Nat.pow_le_pow_right (by norm_num) h8

/-- Masking with `0b10000000` isolates bit 7. -/
theorem and_128_ne_zero (r : Nat) : decide (r &&& 128 ≠ 0) = r.testBit 7 := by
  have h : (128 : Nat) = 2 ^ 7 := by norm_num
  rw [h, Nat.and_two_pow]
  rcases hb : r.testBit 7 <;> simp [hb]

/-- The function `update_zero_and_negative_flags` leaves the Zero flag set exactly when
the result byte is zero. -/
theorem uznf_zeroFlag (cpu : CPU) (r : Nat) :
    zeroFlag (update_zero_and_negative_flags cpu r).status = decide (r = 0) := by
  unfold update_zero_and_negative_flags zeroFlag
  by_cases hz : r = 0
  · subst hz
    simp +decide [Nat.testBit_lor, Nat.testBit_land]
  · by_cases hn : r &&& 128 = 0 <;>
      simp +decide [hz, hn, Nat.testBit_lor, Nat.testBit_land]

/-- The function `update_zero_and_negative_flags` leaves the Negative flag set exactly
when bit 7 of the result byte is set. -/
theorem uznf_negFlag (cpu : CPU) (r : Nat) :
    negFlag (update_zero_and_negative_flags cpu r).status = r.testBit 7 := by
  rw [show r.testBit 7 = decide (r &&& 128 ≠ 0) from (and_128_ne_zero r).symm]
  unfold update_zero_and_negative_flags negFlag
  by_cases hz : r = 0
  · subst hz
    simp +decide [Nat.testBit_lor, Nat.testBit_land]
  · by_cases hn : r &&& 128 = 0 <;>
      simp +decide [hz, hn, Nat.testBit_lor, Nat.testBit_land]

/-- The function `update_zero_and_negative_flags` touches only the status byte. -/
theorem uznf_fields (cpu : CPU) (r : Nat) :
    (update_zero_and_negative_flags cpu r).register_a = cpu.register_a ∧
    (update_zero_and_negative_flags cpu r).register_x = cpu.register_x ∧
    (update_zero_and_negative_flags cpu r).register_y = cpu.register_y ∧
    (update_zero_and_negative_flags cpu r).program_counter = cpu.program_counter ∧
    (update_zero_and_negative_flags cpu r).memory = cpu.memory := by
  unfold update_zero_and_negative_flags
  by_cases hz : r = 0 <;> by_cases hn : r &&& 128 = 0 <;> simp [hz, hn]

/-- Bits of the mask `0b00000010`. -/
theorem testBit_2_eq (i : Nat) : Nat.testBit 2 i = decide (i = 1) := by
  have h : (2 : Nat) = 2 ^ 1 := by norm_num
  rw [h, Nat.testBit_two_pow]
  by_cases hi : i = 1
  · simp [hi]
  · have hi2 : ¬ (1 = i) := fun hh => hi hh.symm
    simp [hi, hi2]

/-- Bits of the mask `0b10000000`. -/
theorem testBit_128_eq (i : Nat) : Nat.testBit 128 i = decide (i = 7) := by
  have h : (128 : Nat) = 2 ^ 7 := by norm_num
  rw [h, Nat.testBit_two_pow]
  by_cases hi : i = 7
  · simp [hi]
  · have hi2 : ¬ (7 = i) := fun hh => hi hh.symm
    simp [hi, hi2]

/-- Bits of the mask `0b01111111`. -/
theorem testBit_127_eq (i : Nat) : Nat.testBit 127 i = decide (i < 7) := by
  have h : (127 : Nat) = 2 ^ 7 - 1 := by norm_num
  rw [h]
  exact Nat.testBit_two_pow_sub_one 7 i

/-- Bits of the mask `0b11111101`. -/
theorem testBit_253_eq (i : Nat) :
    Nat.testBit 253 i = (decide (i < 8) && !(decide (i = 1))) := by
  rcases Nat.lt_or_ge i 8 with h8 | h8
  · interval_cases i <;> decide
  · have hh := testBit_high_false 253 i (by norm_num) h8
    have hn8 : ¬ (i < 8) := by omega
    simp [hh, hn8]

/-- The function `update_zero_and_negative_flags` preserves every status bit other than
bit 1 (Zero) and bit 7 (Negative), given a byte-sized status. -/
theorem uznf_preserves_testBit (cpu : CPU) (r i : Nat) (hs : cpu.status < 256)
    (h1 : i ≠ 1) (h7 : i ≠ 7) :
    (update_zero_and_negative_flags cpu r).status.testBit i = cpu.status.testBit i := by
  rcases Nat.lt_or_ge i 8 with h8 | h8
  · have h7b : i < 7 := by omega
    unfold update_zero_and_negative_flags
    by_cases hz : r = 0 <;> by_cases hn : r &&& 128 = 0 <;>
      simp_all [Nat.testBit_lor, Nat.testBit_land, testBit_2_eq, testBit_128_eq,
        testBit_127_eq, testBit_253_eq]
  · have hsb : cpu.status.testBit i = false := testBit_high_false cpu.status i hs h8
    have t2 : Nat.testBit 2 i = false := testBit_high_false 2 i (by norm_num) h8
    have t127 : Nat.testBit 127 i = false := testBit_high_false 127 i (by norm_num) h8
    have t128 : Nat.testBit 128 i = false := testBit_high_false 128 i (by norm_num) h8
    have t253 : Nat.testBit 253 i = false := testBit_high_false 253 i (by norm_num) h8
    unfold update_zero_and_negative_flags
    by_cases hz : r = 0 <;> by_cases hn : r &&& 128 = 0 <;>
      simp [hz, hn, Nat.testBit_lor, Nat.testBit_land, hsb, t2, t127, t128, t253]

/-- X after `inx_body`: plus one below 0xFF, reset to 0 at 0xFF. -/
theorem inx_body_register_x (cpu : CPU) :
    (inx_body cpu).register_x =
      if cpu.register_x < 0xFF then cpu.register_x + 1 else 0 := by
  unfold inx_body
  by_cases hx : cpu.register_x < 0xFF <;>
    simp [hx, (uznf_fields _ _).2.1]

/-- Zero flag after `inx_body` follows the uniform policy. -/
theorem inx_body_zeroFlag (cpu : CPU) :
    zeroFlag (inx_body cpu).status = decide ((inx_body cpu).register_x = 0) := by
  unfold inx_body
  by_cases hx : cpu.register_x < 0xFF <;>
    simp [hx, (uznf_fields _ _).2.1, uznf_zeroFlag]

/-- Negative flag after `inx_body` follows the uniform policy. -/
theorem inx_body_negFlag (cpu : CPU) :
    negFlag (inx_body cpu).status = (inx_body cpu).register_x.testBit 7 := by
  unfold inx_body
  by_cases hx : cpu.register_x < 0xFF <;>
    simp [hx, (uznf_fields _ _).2.1, uznf_negFlag]

/-- Claim C1: the spec requires the memory array to cover all 65536
addresses so that `mem_read 0xFFFF` succeeds, but the source declares
`memory: [u8; 0xFFFF]`, i.e. 65535 cells, and reading the top address
0xFFFF goes out of bounds (a Rust index panic, modelled as `none`). -/
theorem mem_read_top_address_out_of_bounds :
    MEM_SIZE = 65535 ∧
    mem_read CPU.new 0xFFFF = none ∧
    mem_read CPU.new 0xFFFE = some 0 := by decide

/-- Claim C2: with Y = operand = 5 (and a clear status) the CPY arm
leaves the Carry flag clear, because the code tests `register_y > param`
instead of `>=`; the claim requires Carry to be set whenever Y >= operand. -/
theorem cpy_equal_leaves_carry_clear :
    cpuY5.register_y = 5 ∧
    carryFlag (cpy_body cpuY5 5).status = false ∧
    zeroFlag (cpy_body cpuY5 5).status = true := by decide

/-- Claim C3: after LDA, TAX and INX (the instructions routed through
`update_zero_and_negative_flags`) the Zero flag equals (result byte = 0)
and the Negative flag equals bit 7 of the result byte, both explicitly
cleared when their condition fails. -/
theorem zn_flags_after_lda_tax_inx (cpu : CPU) (v : Nat) :
    ((lda cpu v).register_a = v ∧
     zeroFlag (lda cpu v).status = decide ((lda cpu v).register_a = 0) ∧
     negFlag (lda cpu v).status = (lda cpu v).register_a.testBit 7) ∧
    ((tax cpu).register_x = cpu.register_a ∧
     zeroFlag (tax cpu).status = decide ((tax cpu).register_x = 0) ∧
     negFlag (tax cpu).status = (tax cpu).register_x.testBit 7) ∧
    (zeroFlag (inx_body cpu).status = decide ((inx_body cpu).register_x = 0) ∧
     negFlag (inx_body cpu).status = (inx_body cpu).register_x.testBit 7) := by
  refine ⟨⟨?_, ?_, ?_⟩, ⟨?_, ?_, ?_⟩, inx_body_zeroFlag cpu, inx_body_negFlag cpu⟩ <;>
    simp [lda, tax, (uznf_fields _ _).1, (uznf_fields _ _).2.1,
      uznf_zeroFlag, uznf_negFlag]

/-- Claim C5: INX at X = 0xFF wraps to 0x00 and sets Zero; at X < 0xFF it
increments X by exactly one; the Z/N policy is re-applied to the new X. -/
theorem inx_wraps_and_updates_flags (cpu : CPU) :
    ((inx_body cpu).register_x =
      if cpu.register_x < 0xFF then cpu.register_x + 1 else 0) ∧
    (cpu.register_x = 0xFF →
      (inx_body cpu).register_x = 0 ∧ zeroFlag (inx_body cpu).status = true) ∧
    zeroFlag (inx_body cpu).status = decide ((inx_body cpu).register_x = 0) ∧
    negFlag (inx_body cpu).status = (inx_body cpu).register_x.testBit 7 := by
  refine ⟨inx_body_register_x cpu, ?_, inx_body_zeroFlag cpu, inx_body_negFlag cpu⟩
  intro hx
  have h1 : (inx_body cpu).register_x = 0 := by
    rw [inx_body_register_x cpu, hx]
    simp
  refine ⟨h1, ?_⟩
  rw [inx_body_zeroFlag cpu, h1]
  simp

/-- Witness for C5 at the wraparound point X = 0xFF. -/
theorem inx_wraps_and_updates_flags_witness :
    ((inx_body cpuXFF).register_x =
      if cpuXFF.register_x < 0xFF then cpuXFF.register_x + 1 else 0) ∧
    (cpuXFF.register_x = 0xFF →
      (inx_body cpuXFF).register_x = 0 ∧ zeroFlag (inx_body cpuXFF).status = true) ∧
    zeroFlag (inx_body cpuXFF).status = decide ((inx_body cpuXFF).register_x = 0) ∧
    negFlag (inx_body cpuXFF).status = (inx_body cpuXFF).register_x.testBit 7 :=
  inx_wraps_and_updates_flags cpuXFF

/-- Claim C10: `update_zero_and_negative_flags` changes at most bits 1 and
7 of a byte-sized status and leaves registers, program counter and memory
untouched. -/
theorem uznf_frame_effect (cpu : CPU) (r : Nat) (hs : cpu.status < 256) :
    (∀ i, i ≠ 1 → i ≠ 7 →
      (update_zero_and_negative_flags cpu r).status.testBit i = cpu.status.testBit i) ∧
    carryFlag (update_zero_and_negative_flags cpu r).status = carryFlag cpu.status ∧
    (update_zero_and_negative_flags cpu r).register_a = cpu.register_a ∧
    (update_zero_and_negative_flags cpu r).register_x = cpu.register_x ∧
    (update_zero_and_negative_flags cpu r).register_y = cpu.register_y ∧
    (update_zero_and_negative_flags cpu r).program_counter = cpu.program_counter ∧
    (update_zero_and_negative_flags cpu r).memory = cpu.memory := by
  refine ⟨fun i h1 h7 => uznf_preserves_testBit cpu r i hs h1 h7, ?_, uznf_fields cpu r⟩
  unfold carryFlag
  exact uznf_preserves_testBit cpu r 0 hs (by omega) (by omega)

/-- Witness for C10 at a concrete nonzero status byte. -/
theorem uznf_frame_effect_witness :
    cpuStatus117.status < 256 ∧
    ((∀ i, i ≠ 1 → i ≠ 7 →
      (update_zero_and_negative_flags cpuStatus117 5).status.testBit i =
        cpuStatus117.status.testBit i) ∧
    carryFlag (update_zero_and_negative_flags cpuStatus117 5).status =
      carryFlag cpuStatus117.status ∧
    (update_zero_and_negative_flags cpuStatus117 5).register_a = cpuStatus117.register_a ∧
    (update_zero_and_negative_flags cpuStatus117 5).register_x = cpuStatus117.register_x ∧
    (update_zero_and_negative_flags cpuStatus117 5).register_y = cpuStatus117.register_y ∧
    (update_zero_and_negative_flags cpuStatus117 5).program_counter =
      cpuStatus117.program_counter ∧
    (update_zero_and_negative_flags cpuStatus117 5).memory = cpuStatus117.memory) :=
  ⟨by decide, uznf_frame_effect cpuStatus117 5 (by decide)⟩

/-- Changing only the program counter does not affect memory reads. -/
theorem mem_read_pc_irrelevant (cpu : CPU) (q addr : Nat) :
    mem_read { cpu with program_counter := q } addr = mem_read cpu addr := rfl

/-- One `run` iteration at an LDA-immediate opcode. -/
theorem run_step_lda (fuel : Nat) (cpu : CPU) (v : Nat)
    (h1 : mem_read cpu cpu.program_counter = some 0xA9)
    (h2 : mem_read cpu (cpu.program_counter + 1) = some v) :
    run (fuel + 1) cpu =
      run fuel (lda { cpu with program_counter := cpu.program_counter + 1 + 1 } v) := by
  simp [run, mem_read_pc_irrelevant, h1, h2]

/-- One `run` iteration at the BRK opcode returns normally. -/
theorem run_step_brk (fuel : Nat) (cpu : CPU)
    (h : mem_read cpu cpu.program_counter = some 0x00) :
    run (fuel + 1) cpu =
      RunResult.ok { cpu with program_counter := cpu.program_counter + 1 } := by
  simp [run, h]

/-- The function `reset` zeroes the registers and loads the program counter from the
little-endian pair at 0xFFFC (helper shared by several claims). -/
theorem reset_aux (cpu : CPU) :
    ∃ c, reset cpu = some c ∧ c.register_a = 0 ∧ c.register_x = 0 ∧
      c.register_y = 0 ∧ c.status = 0 ∧
      c.program_counter = ((cpu.memory 0xFFFD) <<< 8) ||| (cpu.memory 0xFFFC) ∧
      c.memory = cpu.memory := by
  refine ⟨CPU.mk 0 0 0 0 (((cpu.memory 0xFFFD) <<< 8) ||| (cpu.memory 0xFFFC)) cpu.memory,
    ?_, rfl, rfl, rfl, rfl, rfl, rfl⟩
  simp [reset, mem_read_u16, mem_read, MEM_SIZE]

/-- Claim C7: after `reset`, A, X, Y and the status byte are zero and the
program counter holds the little-endian 16-bit value stored at 0xFFFC,
whatever the CPU state was before. -/
theorem reset_zeroes_and_loads_vector (cpu : CPU) :
    ∃ c, reset cpu = some c ∧ c.register_a = 0 ∧ c.register_x = 0 ∧
      c.register_y = 0 ∧ c.status = 0 ∧
      c.program_counter = ((cpu.memory 0xFFFD) <<< 8) ||| (cpu.memory 0xFFFC) ∧
      c.memory = cpu.memory :=
  reset_aux cpu

/-- Claim C8: when `run` fetches a byte with no instruction arm, it stops
with a decode error carrying that opcode and the CPU state at the fault:
every register is as the last executed instruction left it, only the
program counter has moved past the bad byte. -/
theorem unknown_opcode_decode_error (fuel : Nat) (cpu : CPU) (op : Nat)
    (hop : mem_read cpu cpu.program_counter = some op)
    (h1 : op ≠ 0xA9) (h2 : op ≠ 0xAA) (h3 : op ≠ 0xC0) (h4 : op ≠ 0xE8)
    (h5 : op ≠ 0x00) :
    run (fuel + 1) cpu =
      RunResult.decodeError op { cpu with program_counter := cpu.program_counter + 1 } := by
  simp [run, hop, h1, h2, h3, h4, h5]

/-- Witness for C8: after LDA #5 has executed, the unimplemented byte 0xFF
is fetched and surfaces as a decode error with A still 5. -/
theorem unknown_opcode_decode_error_witness :
    (mem_read cpuAfterLda5 cpuAfterLda5.program_counter = some 0xFF ∧
     (0xFF : Nat) ≠ 0xA9 ∧ (0xFF : Nat) ≠ 0xAA ∧ (0xFF : Nat) ≠ 0xC0 ∧
     (0xFF : Nat) ≠ 0xE8 ∧ (0xFF : Nat) ≠ 0x00) ∧
    run 1 cpuAfterLda5 =
      RunResult.decodeError 0xFF
        { cpuAfterLda5 with program_counter := cpuAfterLda5.program_counter + 1 } ∧
    cpuAfterLda5.register_a = 5 :=
  ⟨⟨by decide, by decide, by decide, by decide, by decide, by decide⟩,
   unknown_opcode_decode_error 0 cpuAfterLda5 0xFF (by decide) (by decide) (by decide)
     (by decide) (by decide) (by decide),
   by decide⟩

/-- Claim C6: a program of length 0x8000 would exactly fill
0x8000..0xFFFF of a full 16-bit address space, but `load` rejects it
because the memory array holds only 0xFFFF bytes; for in-range lengths it
does copy the bytes verbatim from 0x8000 and writes the little-endian
reset vector 0x8000 at 0xFFFC/0xFFFD. -/
theorem load_boundary_and_copy :
    load CPU.new (List.replicate 0x8000 0) = none ∧
    (load CPU.new [1, 2, 3]).map (fun c => c.memory 0x8000) = some 1 ∧
    (load CPU.new [1, 2, 3]).map (fun c => c.memory 0x8001) = some 2 ∧
    (load CPU.new [1, 2, 3]).map (fun c => c.memory 0x8002) = some 3 ∧
    (load CPU.new [1, 2, 3]).map (fun c => c.memory 0xFFFC) = some 0 ∧
    (load CPU.new [1, 2, 3]).map (fun c => c.memory 0xFFFD) = some 0x80 := by
  refine ⟨?_, by decide, by decide, by decide, by decide, by decide⟩
  unfold load
  rw [List.length_replicate]
  simp [MEM_SIZE]

/-- Bits of the mask `0xFF`. -/
theorem testBit_255_eq (i : Nat) : Nat.testBit 255 i = decide (i < 8) := by
  have h : (255 : Nat) = 2 ^ 8 - 1 := by norm_num
  rw [h]
  exact Nat.testBit_two_pow_sub_one 8 i

/-- Masking with `0xFF` is reduction mod 256. -/
theorem and_255_eq_mod (d : Nat) : d &&& 255 = d % 256 := by
  apply Nat.eq_of_testBit_eq
  intro i
  have h : (256 : Nat) = 2 ^ 8 := by norm_num
  rw [h, Nat.testBit_mod_two_pow]
  simp [Nat.testBit_land, testBit_255_eq, Bool.and_comm]

/-- Splitting a value at bit 8 and recombining with shift-or restores it. -/
theorem hi_lo_recombine (d : Nat) : ((d >>> 8) <<< 8) ||| (d &&& 255) = d := by
  apply Nat.eq_of_testBit_eq
  intro i
  rcases Nat.lt_or_ge i 8 with h8 | h8
  · have hg : ¬ (i ≥ 8) := by omega
    simp [Nat.testBit_lor, Nat.testBit_land, Nat.testBit_shiftLeft, hg,
      testBit_255_eq, h8]
  · have hlt : ¬ (i < 8) := by omega
    have harith : 8 + (i - 8) = i := by omega
    simp [Nat.testBit_lor, Nat.testBit_land, Nat.testBit_shiftLeft,
      Nat.testBit_shiftRight, h8, hlt, harith, testBit_255_eq]

/-- Claim C9: for any address whose successor is still inside the memory
array and any 16-bit value, `mem_write_u16` stores the low byte at `p`
and the high byte at `p + 1`, and `mem_read_u16` reads the value back. -/
theorem mem_u16_little_endian_roundtrip (cpu : CPU) (p d : Nat)
    (hp : p + 1 < MEM_SIZE) (hd : d < 65536) :
    ∃ c, mem_write_u16 cpu p d = some c ∧
      c.memory p = d % 256 ∧
      c.memory (p + 1) = d / 256 ∧
      mem_read_u16 c p = some d := by
  have hp0 : p < MEM_SIZE := by omega
  have hdiv : d >>> 8 = d / 256 := by
    rw [Nat.shiftRight_eq_div_pow]
  have hlt : d / 256 < 256 := by
    rw [Nat.div_lt_iff_lt_mul (by norm_num)]
    omega
  have hmod : (d >>> 8) % 256 = d >>> 8 := by
    rw [hdiv]
    exact Nat.mod_eq_of_lt hlt
  have hne : ¬ (p = p + 1) := by omega
  refine ⟨CPU.mk cpu.register_a cpu.register_x cpu.register_y cpu.status
      cpu.program_counter
      (fun i => if i = p + 1 then (d >>> 8) % 256
        else if i = p then d &&& 255 else cpu.memory i), ?_, ?_, ?_, ?_⟩
  · simp [mem_write_u16, mem_write, hp0, hp]
  · simp [hne, and_255_eq_mod]
  · simp [hmod, hdiv, hlt]
  · simp [mem_read_u16, mem_read, hp0, hp, hne, hmod, hi_lo_recombine]

/-- Witness for C9 at p = 0x10, d = 0xBEEF. -/
theorem mem_u16_little_endian_roundtrip_witness :
    ((0x10 : Nat) + 1 < MEM_SIZE ∧ (0xBEEF : Nat) < 65536) ∧
    ∃ c, mem_write_u16 CPU.new 0x10 0xBEEF = some c ∧
      c.memory 0x10 = 0xBEEF % 256 ∧
      c.memory (0x10 + 1) = 0xBEEF / 256 ∧
      mem_read_u16 c 0x10 = some 0xBEEF :=
  ⟨⟨by decide, by decide⟩,
   mem_u16_little_endian_roundtrip CPU.new 0x10 0xBEEF (by decide) (by decide)⟩

/-- The function `lda` leaves memory untouched. -/
theorem lda_memory (cpu : CPU) (v : Nat) : (lda cpu v).memory = cpu.memory := by
  simp [lda, (uznf_fields _ _).2.2.2.2]

/-- The function `lda` leaves the program counter untouched. -/
theorem lda_pc (cpu : CPU) (v : Nat) :
    (lda cpu v).program_counter = cpu.program_counter := by
  simp [lda, (uznf_fields _ _).2.2.2.1]

/-- The function `lda` stores its operand in A. -/
theorem lda_a (cpu : CPU) (v : Nat) : (lda cpu v).register_a = v := by
  simp [lda, (uznf_fields _ _).1]

/-- Zero flag after `lda`. -/
theorem lda_zeroFlag (cpu : CPU) (v : Nat) :
    zeroFlag (lda cpu v).status = decide (v = 0) := by
  simp [lda, uznf_zeroFlag]

/-- Negative flag after `lda`. -/
theorem lda_negFlag (cpu : CPU) (v : Nat) :
    negFlag (lda cpu v).status = v.testBit 7 := by
  simp [lda, uznf_negFlag]

/-- Claim C4: running `[0xA9, v, 0x00]` (LDA immediate `v`, then BRK)
through `load_and_run` ends normally with A = v, Zero = (v = 0) and
Negative = bit 7 of v. -/
theorem lda_immediate_program (v : Nat) (hv : v < 256) :
    ∃ c, load_and_run 2 CPU.new [0xA9, v, 0x00] = RunResult.ok c ∧
      c.register_a = v ∧
      zeroFlag c.status = decide (v = 0) ∧
      negFlag c.status = v.testBit 7 := by
  obtain ⟨c1, hc1, m0, m1, m2, mfc, mfd⟩ :
      ∃ c1, load CPU.new [0xA9, v, 0x00] = some c1 ∧
        c1.memory 0x8000 = 0xA9 ∧ c1.memory 0x8001 = v ∧ c1.memory 0x8002 = 0 ∧
        c1.memory 0xFFFC = 0 ∧ c1.memory 0xFFFD = 0x80 := by
    refine ⟨_, rfl, ?_, ?_, ?_, ?_, ?_⟩ <;>
      simp [load, mem_write_u16, mem_write, MEM_SIZE, List.getD, and_255_eq_mod]
  obtain ⟨c2, hc2, ha2, hx2, hy2, hst2, hpc2, hmem2⟩ := reset_aux c1
  have hpc2' : c2.program_counter = 0x8000 := by
    rw [hpc2, mfc, mfd]
    decide
  have h1 : mem_read c2 c2.program_counter = some 0xA9 := by
    rw [hpc2']
    simp [mem_read, MEM_SIZE, hmem2, m0]
  have h2 : mem_read c2 (c2.program_counter + 1) = some v := by
    rw [hpc2']
    simp [mem_read, MEM_SIZE, hmem2, m1]
  have hrun : run 2 c2 =
      run 1 (lda { c2 with program_counter := c2.program_counter + 1 + 1 } v) :=
    run_step_lda 1 c2 v h1 h2
  have hbrkread : mem_read (lda { c2 with program_counter := c2.program_counter + 1 + 1 } v)
      (lda { c2 with program_counter := c2.program_counter + 1 + 1 } v).program_counter
      = some 0x00 := by
    simp [mem_read, MEM_SIZE, lda_memory, lda_pc, hmem2, hpc2', m2]
  have hchain : load_and_run 2 CPU.new [0xA9, v, 0x00] = run 2 c2 := by
    simp only [load_and_run, hc1, hc2]
  rw [hchain, hrun,
    run_step_brk 0 (lda { c2 with program_counter := c2.program_counter + 1 + 1 } v) hbrkread]
  exact ⟨_, rfl, by simp [lda_a], by simp [lda_zeroFlag], by simp [lda_negFlag]⟩

/-- Witness for C4 at v = 5. -/
theorem lda_immediate_program_witness :
    (5 : Nat) < 256 ∧
    ∃ c, load_and_run 2 CPU.new [0xA9, 5, 0x00] = RunResult.ok c ∧
      c.register_a = 5 ∧
      zeroFlag c.status = decide ((5 : Nat) = 0) ∧
      negFlag c.status = (5 : Nat).testBit 7 :=
  ⟨by decide, lda_immediate_program 5 (by decide)⟩
